import Mathlib

/-!
Shallow embedding of the core of `iobroker-dev-server` (src/index.ts):
the file-sync watcher set up in `startFileSync`, the source-map
operations `patchSourcemap`, `createIdentitySourcemap` and
`addSourcemap`, and the two-route reverse proxy set up in `runServer`.

File contents and request paths are modelled as `String` / `List Char`;
the destination directory as a partial map from relative filename to
content; the failing Node.js filesystem and tokenizer calls as
`Except`-valued operations.
-/

namespace DevServer

/-- Destination file system of the mirror directory: maps a relative
filename to the content of the file, when it exists. -/
def FS : Type := String → Option String

/-- Model of `fs.existsSync` inside the destination mirror. -/
def fsExists (dest : FS) (f : String) : Bool :=
  (dest f).isSome

/-- Effect of a successful `fs.unlinkSync`: the file is removed, all
other files keep their content. -/
def fsErase (dest : FS) (f : String) : FS :=
  fun g => if g = f then none else dest g

/-- Model of `fs.unlinkSync(path)`: removes the file, or throws an
`ENOENT` error when the file does not exist. -/
def unlinkSyncE (dest : FS) (f : String) : Except String FS :=
  if fsExists dest f then .ok (fsErase dest f) else .error ("ENOENT: " ++ f)

/-- Model of JavaScript's `String.prototype.endsWith` on the character
lists of the strings. -/
def strEndsWith (s p : String) : Bool := p.data.isSuffixOf s.data

/-- State owned by the watcher closure in `startFileSync`: the `ready`
flag set by the ready event, and the `ignoreFiles` array filled during
the initial scan. -/
structure WatcherState where
  ready : Bool
  ignoreFiles : List String
  deriving DecidableEq, Repr

/-- What the `add` handler did with the event: dispatched the filename to
`syncFile`, pushed it onto `ignoreFiles`, or only logged `Watching ...`. -/
inductive AddAction where
  | dispatchSync (filename : String)
  | pushIgnored (filename : String)
  | logWatching (filename : String)
  deriving DecidableEq, Repr

/-- The `watcher.on('add', ...)` handler of `startFileSync`:
if ready, dispatch to `syncFile`; else if the filename does not end in
`map` and does not exist in the destination, push it onto `ignoreFiles`;
else only log. -/
def handleAdd (st : WatcherState) (dest : FS) (filename : String) :
    WatcherState × AddAction :=
  if st.ready then (st, .dispatchSync filename)
  else if !(strEndsWith filename "map") && !(fsExists dest filename) then
    ({ st with ignoreFiles := st.ignoreFiles ++ [filename] }, .pushIgnored filename)
  else (st, .logWatching filename)

/-- The `watcher.on('change', ...)` handler of `startFileSync`: returns
whether the filename is dispatched to `syncFile` (it is unless the
filename is in `ignoreFiles`; the `ready` flag is not consulted). -/
def handleChange (st : WatcherState) (filename : String) : Bool :=
  !(st.ignoreFiles.contains filename)

/-- The `watcher.on('unlink', ...)` handler of `startFileSync`:
`fs.unlinkSync` on the destination file (not wrapped in try/catch, so a
failure escapes the handler), then, when `<filename>.map` exists in the
destination, `fs.unlinkSync` on it as well. -/
def handleUnlink (dest : FS) (filename : String) : Except String FS :=
  match unlinkSyncE dest filename with
  | .error e => .error e
  | .ok dest1 =>
    let mapPath := filename ++ ".map"
    if fsExists dest1 mapPath then unlinkSyncE dest1 mapPath else .ok dest1

/-- Events delivered by the chokidar watcher to the handlers registered
in `startFileSync`. -/
inductive WatchEvent where
  | add (filename : String)
  | change (filename : String)
  | unlink (filename : String)
  | readyEvent
  deriving DecidableEq, Repr

/-- Result of delivering one watch event: the updated handler state, the
updated destination directory, the filenames dispatched to `syncFile` by
the handler, and an error escaping the handler (only possible for
`unlink`, whose body is not wrapped in try/catch). -/
structure StepResult where
  state : WatcherState
  dest : FS
  dispatched : List String
  raised : Option String

/-- Event-dispatch layer of `startFileSync`: delivers one event to the
corresponding handler. `syncFile` runs asynchronously; its dispatches are
recorded in `dispatched` (its own filesystem effects are modelled by
`patchSourcemap` / `addSourcemap` below). -/
def stepEvent (st : WatcherState) (dest : FS) : WatchEvent → StepResult
  | .add f =>
    let (st1, act) := handleAdd st dest f
    { state := st1, dest := dest,
      dispatched := match act with | .dispatchSync g => [g] | _ => [],
      raised := none }
  | .change f =>
    { state := st, dest := dest,
      dispatched := if handleChange st f then [f] else [],
      raised := none }
  | .unlink f =>
    match handleUnlink dest f with
    | .ok d2 => { state := st, dest := d2, dispatched := [], raised := none }
    | .error e => { state := st, dest := dest, dispatched := [], raised := some e }
  | .readyEvent =>
    { state := { st with ready := true }, dest := dest,
      dispatched := [], raised := none }

/-- Replacement of every backslash by a forward slash, as done by
`.replace(/\\/g, '/')` on paths in `patchSourcemap` and `addSourcemap`. -/
def replaceBackslashes (s : String) : String :=
  String.mk (s.data.map (fun c => if c = '\\' then '/' else c))

/-- Model of Node's `path.dirname` for the paths handed to
`patchSourcemap`: everything before the last slash (`"."` when there is
no slash, `"/"` when the last slash is the leading one). -/
def dirname (p : String) : String :=
  let cs := p.data
  if cs.contains '/' then
    let before := ((cs.reverse.dropWhile (fun c => c ≠ '/')).drop 1).reverse
    if before.isEmpty then "/" else String.mk before
  else "."

/-- Model of Node's `path.basename`: everything after the last slash. -/
def basename (p : String) : String :=
  String.mk ((p.data.reverse.takeWhile (fun c => c ≠ '/')).reverse)

/-- A parsed source-map JSON document as handled by `patchSourcemap`:
the `version` and `sourceRoot` fields it inspects and assigns, and the
remaining JSON fields (mappings, sources, ...) carried verbatim. -/
structure SourceMapDoc where
  version : Int
  sourceRoot : Option String
  rest : String
  deriving DecidableEq, Repr

/-- Body of the `try` block of `patchSourcemap`: reject any document
whose `version` field is not `3`, otherwise overwrite its `sourceRoot`
with the slash-normalized directory of the source path. -/
def patchSourcemapBody (src : String) (data : SourceMapDoc) :
    Except String SourceMapDoc :=
  if data.version ≠ 3 then
    .error ("Unsupported sourcemap version: " ++ toString data.version)
  else
    .ok { data with sourceRoot := some (replaceBackslashes (dirname src)) }

/-- What the caller of `patchSourcemap` observes: the content of the
destination file after the call (given its prior content), whether a
warning was logged, and an error propagated out of the call. -/
structure PatchOutcome where
  destContent : Option SourceMapDoc
  warned : Bool
  raised : Option String
  deriving DecidableEq, Repr

/-- The whole of `patchSourcemap src dest`, taking the parsed content of
`src` and the prior content of `dest`: the body runs inside
`try ... catch (error) { this.log.warn(...) }`, so on failure the error
is logged and swallowed and the destination is not written. -/
def patchSourcemap (src : String) (data : SourceMapDoc)
    (destPrior : Option SourceMapDoc) : PatchOutcome :=
  match patchSourcemapBody src data with
  | .ok d => { destContent := some d, warned := false, raised := none }
  | .error _ => { destContent := destPrior, warned := true, raised := none }

/-- A line/column source position (`loc.start` of an acorn token). -/
structure Position where
  line : Nat
  column : Nat
  deriving DecidableEq, Repr

/-- An acorn token as consumed by `createIdentitySourcemap`: its type
label and its optional start position (`locations: true` makes acorn
attach one to every token). -/
structure Token where
  label : String
  loc : Option Position
  deriving DecidableEq, Repr

/-- A mapping added to the `SourceMapGenerator`. -/
structure Mapping where
  original : Position
  generated : Position
  source : String
  deriving DecidableEq, Repr

/-- The token loop of `createIdentitySourcemap` over the stream produced
by `acorn.tokenizer(...).getToken()`: stop at the `eof` token or at a
token without a location; for every other token add a mapping whose
generated and original positions are both the token's start and whose
source is the filename passed in. -/
def createIdentitySourcemap (filename : String) : List Token → List Mapping
  | [] => []
  | t :: ts =>
    if t.label = "eof" then []
    else
      match t.loc with
      | none => []
      | some p =>
        { original := p, generated := p, source := filename } ::
          createIdentitySourcemap filename ts

/-- The mapping emitted for one located token: generated and original
positions are both the token's start, the source is the filename. -/
def tokenMapping (filename : String) (t : Token) : Mapping :=
  { original := t.loc.getD { line := 0, column := 0 },
    generated := t.loc.getD { line := 0, column := 0 },
    source := filename }

/-- Rendering of a position used by the opaque serialization below. -/
def renderPos (p : Position) : String :=
  toString p.line ++ ":" ++ toString p.column

/-- Rendering of one mapping used by the opaque serialization below. -/
def renderMapping (m : Mapping) : String :=
  m.source ++ "@" ++ renderPos m.original ++ ">" ++ renderPos m.generated

/-- Stand-in for `JSON.stringify(generator.toJSON())`: some injective-
enough rendering of the mapping list (no claim depends on its format). -/
def serializeSourcemap (ms : List Mapping) : String :=
  String.intercalate "," (ms.map renderMapping)

/-- The literal comment marker `//# sourceMappingURL=` searched for and
appended by `addSourcemap`. -/
def refMarker : List Char := "//# sourceMappingURL=".data

/-- Characters on which the JavaScript regex `.` does not match (line
terminators). -/
def isLineTerm (c : Char) : Bool :=
  c = '\n' || c = '\r' || c = '\u2028' || c = '\u2029'

/-- Whether the regex `\/\/\# sourceMappingURL=.+` matches at the start
of `s`: the literal marker followed by at least one non-terminator
character. -/
def refMatchAt (s : List Char) : Bool :=
  refMarker.isPrefixOf s &&
    (match (s.drop refMarker.length).head? with
     | some c => !isLineTerm c
     | none => false)

/-- Whether the regex `\/\/\# sourceMappingURL=.+` matches anywhere in
the content (the condition under which `String.replace` changes it). -/
def hasRefMatch : List Char → Bool
  | [] => false
  | c :: rest => refMatchAt (c :: rest) || hasRefMatch rest

/-- Model of `fileContent.replace(/(\/\/\# sourceMappingURL=).+/, s)`
with replacement `$1<fn>`: the first match (marker plus the greedy run of
non-terminator characters) has its target replaced by `fn`. -/
def replaceFirstRef (fn : List Char) : List Char → List Char
  | [] => []
  | c :: rest =>
    if refMatchAt (c :: rest) then
      refMarker ++ fn ++
        ((c :: rest).drop refMarker.length).dropWhile (fun ch => !isLineTerm ch)
    else c :: replaceFirstRef fn rest

/-- Model of `fileContent.match(/\r\n/)` being truthy: the content
contains a CRLF pair somewhere. -/
def containsCRLF : List Char → Bool
  | [] => false
  | c :: rest => (c = '\r' && rest.head? = some '\n') || containsCRLF rest

/-- The content update performed by `addSourcemap` on the destination
file (lines 315-326 of index.ts): replace an existing sourceMappingURL
reference in place; when nothing was replaced, append a new reference,
preceded - when the content does not already end in a newline - by `\r\n`
when the content contains a CRLF and by `\n` otherwise. -/
def updateMapRef (fileContent : List Char) (filename : List Char) : List Char :=
  let updated := replaceFirstRef filename fileContent
  if updated = fileContent then
    let withNl :=
      if fileContent.getLast? = some '\n' then fileContent
      else if containsCRLF fileContent then fileContent ++ ['\r', '\n']
      else fileContent ++ ['\n']
    withNl ++ refMarker ++ filename
  else updated

/-- Environment of failing external calls used by `addSourcemap`:
`readFileAsync` results by path, whether `writeFileAsync` succeeds for a
path, and the outcome of running the acorn tokenizer to completion on a
content (acorn throws on lexically invalid input). -/
structure Env where
  read : String → Except String (List Char)
  writeOk : String → Bool
  tokens : List Char → Except String (List Token)

/-- Model of one `writeFileAsync(p, c)` call: the performed write, or a
failure. -/
def writeFileE (env : Env) (p : String) (c : List Char) :
    Except String (String × List Char) :=
  if env.writeOk p then .ok (p, c) else .error ("write failed: " ++ p)

/-- The `createIdentitySourcemap` pipeline including its own
`readFileAsync` and the tokenizer run. -/
def createIdentitySourcemapIO (env : Env) (filename : String) :
    Except String (List Mapping) := do
  let content ← env.read filename
  let ts ← env.tokens content
  pure (createIdentitySourcemap filename ts)

/-- Body of the `try` block of `addSourcemap src dest copyFromSrc`:
synthesize the identity map for the slash-normalized source, write it
next to the destination, read the content to update, rewrite or append
the sourceMappingURL reference, and write the destination; returns the
performed writes in order. -/
def addSourcemapBody (env : Env) (src dest : String) (copyFromSrc : Bool) :
    Except String (List (String × List Char)) := do
  let mapFile := dest ++ ".map"
  let data ← createIdentitySourcemapIO env (replaceBackslashes src)
  let w1 ← writeFileE env mapFile (serializeSourcemap data).data
  let fileContent ← env.read (if copyFromSrc then src else dest)
  let filename := basename mapFile
  let updatedContent := updateMapRef fileContent filename.data
  let w2 ← writeFileE env dest updatedContent
  pure [w1, w2]

/-- What the caller of `addSourcemap` observes: the writes of a
successful run, whether a warning was logged, and an error propagated
out of the call. -/
structure AddOutcome where
  writes : List (String × List Char)
  warned : Bool
  raised : Option String

/-- The whole of `addSourcemap`: the body runs inside
`try ... catch (error) { this.log.warn(...) }`, so every error of the
pipeline is logged as a warning and swallowed. -/
def addSourcemap (env : Env) (src dest : String) (copyFromSrc : Bool) :
    AddOutcome :=
  match addSourcemapBody env src dest copyFromSrc with
  | .ok ws => { writes := ws, warned := false, raised := none }
  | .error _ => { writes := [], warned := true, raised := none }

/-- Whether an `Except` is an error. -/
def exceptIsError : Except String α → Bool
  | .ok _ => false
  | .error _ => true

/-- The `/adapter/<adapterName>/` path start of the first proxy context
pattern (`/adapter/${this.adapterName}/**`) and of its pathRewrite key
(`^/adapter/${this.adapterName}/`). -/
def adapterPatternChars (name : List Char) : List Char :=
  "/adapter/".data ++ (name ++ ['/'])

/-- The `/browser-sync/` path start of the second context pattern
(`/browser-sync/**`) of the first proxy. -/
def browserSyncChars : List Char := "/browser-sync/".data

/-- Whether the first proxy of `runServer` (target
`http://localhost:HIDDEN_BROWSER_SYNC_PORT`) matches the request path:
either context pattern does. -/
def matchesAssetRoute (name p : List Char) : Bool :=
  (adapterPatternChars name).isPrefixOf p || browserSyncChars.isPrefixOf p

/-- The pathRewrite rule of the first proxy,
`{'^/adapter/<name>/': '/'}`: when the path starts with the adapter
pattern, that start is replaced by a single slash. -/
def rewriteAdapterPath (name p : List Char) : List Char :=
  let pat := adapterPatternChars name
  if pat.isPrefixOf p then '/' :: p.drop pat.length else p

/-- The two upstream origins of `runServer`: the browser-sync UI asset
server on `HIDDEN_BROWSER_SYNC_PORT` and the admin application server on
`HIDDEN_ADMIN_PORT`. -/
inductive Origin where
  | assetOrigin
  | appOrigin
  deriving DecidableEq, Repr

/-- A forwarded request: which origin receives it, with which path, and
whether WebSocket upgrade is enabled on the route that handled it. -/
structure Forwarded where
  target : Origin
  path : List Char
  wsEnabled : Bool
  deriving DecidableEq, Repr

/-- The routing decision of the two express proxy middlewares in
`runServer`: the first matches `/adapter/<name>/**` or
`/browser-sync/**` and forwards to the asset origin with the pathRewrite
applied (its `ws` option is commented out, so upgrade is disabled); the
second matches the negation of both patterns and forwards unmodified to
the application origin with `ws: true`. -/
def routeRequest (name p : List Char) : Forwarded :=
  if matchesAssetRoute name p then
    { target := .assetOrigin, path := rewriteAdapterPath name p, wsEnabled := false }
  else
    { target := .appOrigin, path := p, wsEnabled := true }

/-- A concrete seeded destination directory used by witnesses: it holds
`x.js` and nothing else. -/
def destSeeded : FS :=
  fun g => if g = "x.js" then some "console.log(1);" else none

/-! Theorems settling the claims. -/

/-- Claim C2, counterexample to the claim as stated: for the concrete
version-2 source-map document, the unsupported-version error does not
propagate to the caller of `patchSourcemap` (the call returns normally,
`raised = none`, because the error is caught by the function's own
try/catch), while indeed no destination write is performed. -/
theorem unsupportedVersionPropagationCounterexample :
    (patchSourcemap "maps/b.js.map"
        { version := 2, sourceRoot := none, rest := "" } none).raised = none ∧
    (patchSourcemap "maps/b.js.map"
        { version := 2, sourceRoot := none, rest := "" } none).destContent = none := by
  decide

/-- Claim C2 as amended: for every source-map document whose version is
not 3, `patchSourcemap` fails internally with an unsupported-version
error that is caught inside the function and logged as a warning (it
does not propagate to the caller), and no write to the destination is
performed (the destination content is unchanged). -/
theorem unsupportedVersionCaughtNoWrite (src : String) (data : SourceMapDoc)
    (destPrior : Option SourceMapDoc) (h : data.version ≠ 3) :
    patchSourcemap src data destPrior =
      { destContent := destPrior, warned := true, raised := none } := by
  unfold patchSourcemap patchSourcemapBody
  rw [if_pos h]

/-- Witness for `unsupportedVersionCaughtNoWrite` at a concrete
version-0 document. -/
theorem unsupportedVersionCaughtNoWrite_witness :
    patchSourcemap "out/a.js.map"
        { version := 0, sourceRoot := some "old", rest := "m" }
        (some { version := 3, sourceRoot := none, rest := "prior" }) =
      { destContent := some { version := 3, sourceRoot := none, rest := "prior" },
        warned := true, raised := none } :=
  unsupportedVersionCaughtNoWrite "out/a.js.map"
    { version := 0, sourceRoot := some "old", rest := "m" }
    (some { version := 3, sourceRoot := none, rest := "prior" }) (by decide)

/-- Claim C8: `patchSourcemap` is idempotent on the source-root field:
whenever the body rewrite succeeds on a document, applying it again to
the resulting document succeeds and returns the same document. -/
theorem patchSourcemapIdempotent (src : String) (d d2 : SourceMapDoc)
    (h : patchSourcemapBody src d = .ok d2) :
    patchSourcemapBody src d2 = .ok d2 := by
  unfold patchSourcemapBody at h ⊢
  by_cases hv : d.version ≠ 3
  · rw [if_pos hv] at h
    exact absurd h (by simp)
  · rw [if_neg hv] at h
    have hd2 : d2 = { d with sourceRoot := some (replaceBackslashes (dirname src)) } := by
      injection h with h2
      exact h2.symm
    subst hd2
    rw [if_neg hv]

/-- Witness for `patchSourcemapIdempotent` at a concrete version-3
document and source path. -/
theorem patchSourcemapIdempotent_witness :
    patchSourcemapBody "a/b.js.map"
        { version := 3, sourceRoot := some "a", rest := "m" } =
      .ok { version := 3, sourceRoot := some "a", rest := "m" } :=
  patchSourcemapIdempotent "a/b.js.map"
    { version := 3, sourceRoot := some "old", rest := "m" }
    { version := 3, sourceRoot := some "a", rest := "m" } rfl

/-- Claim C10: a change event is dispatched to `syncFile` whenever its
path is not in the exclusion list, for any value of the `ready` flag (the
change handler does not consult `ready`; only add events are gated on
it). -/
theorem changeDispatchIgnoresReady (ready : Bool) (ig : List String) (dest : FS)
    (f : String) (h : ig.contains f = false) :
    (stepEvent { ready := ready, ignoreFiles := ig } dest (.change f)).dispatched = [f] := by
  have h2 : f ∉ ig := by simpa using h
  simp [stepEvent, handleChange, h2]

/-- Witness for `changeDispatchIgnoresReady`: a change event before
ready, for a path not excluded, is dispatched. -/
theorem changeDispatchIgnoresReady_witness :
    (stepEvent { ready := false, ignoreFiles := ["b.js"] } (fun _ => none)
        (.change "a.js")).dispatched = ["a.js"] :=
  changeDispatchIgnoresReady false ["b.js"] (fun _ => none) "a.js" (by decide)

/-- Claim C6: an add event delivered before ready, for a map file or for
a path already present in the destination, performs no copy and no
write: nothing is dispatched to `syncFile`, the destination is unchanged,
the handler state is unchanged and no error escapes. -/
theorem addBeforeReadyNoWrite (st : WatcherState) (dest : FS) (f : String)
    (hready : st.ready = false)
    (h : strEndsWith f "map" = true ∨ fsExists dest f = true) :
    (stepEvent st dest (.add f)).dest = dest ∧
    (stepEvent st dest (.add f)).dispatched = [] ∧
    (stepEvent st dest (.add f)).state = st ∧
    (stepEvent st dest (.add f)).raised = none := by
  have hcond : (!(strEndsWith f "map") && !(fsExists dest f)) = false := by
    rcases h with h | h <;> simp [h]
  refine ⟨?_, ?_, ?_, ?_⟩ <;> simp [stepEvent, handleAdd, hready, hcond]

/-- Witness for `addBeforeReadyNoWrite`: an add event before ready for a
file already present in the destination. -/
theorem addBeforeReadyNoWrite_witness :
    (stepEvent { ready := false, ignoreFiles := [] } destSeeded (.add "x.js")).dest
        = destSeeded ∧
    (stepEvent { ready := false, ignoreFiles := [] } destSeeded (.add "x.js")).dispatched
        = [] ∧
    (stepEvent { ready := false, ignoreFiles := [] } destSeeded (.add "x.js")).state
        = { ready := false, ignoreFiles := [] } ∧
    (stepEvent { ready := false, ignoreFiles := [] } destSeeded (.add "x.js")).raised
        = none :=
  addBeforeReadyNoWrite { ready := false, ignoreFiles := [] } destSeeded "x.js" rfl
    (Or.inr (by decide))

/-- Claim C1, counterexample to the claim as stated: `a.js` is excluded
during the initial scan (add event before ready, not a map file, absent
from the empty destination); after the ready event, a change event for
`a.js` does NOT dispatch it to `syncFile` - the exclusion list is never
cleared, so the later modify event does not cause a sync. -/
theorem excludedChangeCounterexample :
    ((stepEvent { ready := false, ignoreFiles := [] } (fun _ => none)
        (.add "a.js")).state.ignoreFiles.contains "a.js" = true) ∧
    ((stepEvent
        (stepEvent
          (stepEvent { ready := false, ignoreFiles := [] } (fun _ => none)
            (.add "a.js")).state
          (fun _ => none) .readyEvent).state
        (fun _ => none) (.change "a.js")).dispatched = []) := by
  constructor
  · decide
  · decide

/-- Claim C1 as amended: once a path is on the exclusion list, a change
event for it is never dispatched to `syncFile`; no event ever removes a
path from the exclusion list (it is append-only, so the exclusion is not
lifted by later modify events); an add event arriving after ready is
dispatched to `syncFile` regardless of the exclusion list. -/
theorem excludedPathChangeNeverDispatched (st : WatcherState) (dest : FS)
    (f : String) (e : WatchEvent) (h : st.ignoreFiles.contains f = true) :
    (stepEvent st dest (.change f)).dispatched = [] ∧
    (stepEvent st dest e).state.ignoreFiles.contains f = true ∧
    (st.ready = true → (stepEvent st dest (.add f)).dispatched = [f]) := by
  have h2 : f ∈ st.ignoreFiles := by simpa using h
  refine ⟨?_, ?_, ?_⟩
  · simp [stepEvent, handleChange, h2]
  · cases e with
    | add g =>
      simp only [stepEvent, handleAdd]
      by_cases hr : st.ready
      · simp [hr, h2]
      · by_cases hc : (!(strEndsWith g "map") && !(fsExists dest g)) = true
        · simp [hr, hc, h2]
        · simp [hr, hc, h2]
    | change g => simpa using h2
    | unlink g =>
      simp only [stepEvent]
      cases handleUnlink dest g with
      | ok d2 => simpa using h2
      | error err => simpa using h2
    | readyEvent => simpa using h2
  · intro hr
    simp [stepEvent, handleAdd, hr]

/-- Witness for `excludedPathChangeNeverDispatched` at a concrete
excluded path and a concrete later event. -/
theorem excludedPathChangeNeverDispatched_witness :
    (stepEvent { ready := true, ignoreFiles := ["a.js"] } destSeeded
        (.change "a.js")).dispatched = [] ∧
    (stepEvent { ready := true, ignoreFiles := ["a.js"] } destSeeded
        (.change "b.js")).state.ignoreFiles.contains "a.js" = true ∧
    (({ ready := true, ignoreFiles := ["a.js"] } : WatcherState).ready = true →
      (stepEvent { ready := true, ignoreFiles := ["a.js"] } destSeeded
        (.add "a.js")).dispatched = ["a.js"]) :=
  excludedPathChangeNeverDispatched { ready := true, ignoreFiles := ["a.js"] }
    destSeeded "a.js" (.change "b.js") (by decide)

/-- Claim C5: an unlink event for a file present in the destination
removes it and removes its `.map` sibling exactly when that sibling is
present (other files are untouched); when the first deletion fails
(file absent), the error is not caught and escapes the handler. -/
theorem unlinkHandlerSpec (dest : FS) (f : String) :
    (fsExists dest f = true →
      ∃ d2, handleUnlink dest f = .ok d2 ∧ d2 f = none ∧
        d2 (f ++ ".map") = none ∧
        ∀ g, g ≠ f → g ≠ f ++ ".map" → d2 g = dest g) ∧
    (fsExists dest f = false → ∃ err, handleUnlink dest f = .error err) := by
  have hf : f ≠ f ++ ".map" := by
    intro hh
    have hlen := congrArg String.length hh
    rw [String.length_append] at hlen
    have h4 : (".map" : String).length = 4 := rfl
    rw [h4] at hlen
    omega
  constructor
  · intro h
    have hstep : handleUnlink dest f =
        (if fsExists (fsErase dest f) (f ++ ".map") then
          unlinkSyncE (fsErase dest f) (f ++ ".map") else .ok (fsErase dest f)) := by
      simp [handleUnlink, unlinkSyncE, h]
    by_cases hm : fsExists (fsErase dest f) (f ++ ".map") = true
    · refine ⟨fsErase (fsErase dest f) (f ++ ".map"), ?_, ?_, ?_, ?_⟩
      · rw [hstep, if_pos hm]
        unfold unlinkSyncE
        rw [if_pos hm]
      · simp [fsErase, hf]
      · simp [fsErase]
      · intro g hg1 hg2
        simp [fsErase, hg1, hg2]
    · refine ⟨fsErase dest f, ?_, ?_, ?_, ?_⟩
      · rw [hstep, if_neg hm]
      · simp [fsErase]
      · have hnone : (fsErase dest f (f ++ ".map")).isSome = false := by
          simpa [fsExists] using hm
        simpa using hnone
      · intro g hg1 hg2
        simp [fsErase, hg1]
  · intro h
    refine ⟨"ENOENT: " ++ f, ?_⟩
    have herr : unlinkSyncE dest f = .error ("ENOENT: " ++ f) := by
      unfold unlinkSyncE
      rw [if_neg (by simp [h])]
    unfold handleUnlink
    rw [herr]

/-- Witness for `unlinkHandlerSpec`: unlinking `x.js` from the seeded
destination (which holds `x.js` but not `x.js.map`) succeeds, removing
`x.js` and leaving the absent map a no-op. -/
theorem unlinkHandlerSpec_witness :
    ∃ d2, handleUnlink destSeeded "x.js" = .ok d2 ∧ d2 "x.js" = none ∧
      d2 ("x.js" ++ ".map") = none ∧
      ∀ g, g ≠ "x.js" → g ≠ "x.js" ++ ".map" → d2 g = destSeeded g :=
  (unlinkHandlerSpec destSeeded "x.js").1 (by decide)

/-- Claim C7: `addSourcemap` never propagates an error to its caller
(for every environment of read, write and tokenizer outcomes the call
returns normally with `raised = none`), and a warning is logged exactly
when the pipeline body failed. -/
theorem addSourcemapNeverRaises (env : Env) (src dest : String)
    (copyFromSrc : Bool) :
    (addSourcemap env src dest copyFromSrc).raised = none ∧
    (addSourcemap env src dest copyFromSrc).warned =
      exceptIsError (addSourcemapBody env src dest copyFromSrc) := by
  unfold addSourcemap
  cases h : addSourcemapBody env src dest copyFromSrc <;>
    simp [exceptIsError]

/-- Helper for claim C3: on a stream of located non-eof tokens followed
by the end-of-stream token, the loop emits exactly one identity mapping
per token. -/
theorem createIdentity_eq_map (fn : String) (eofTok : Token)
    (heof : eofTok.label = "eof") :
    ∀ ts : List Token,
      (∀ t ∈ ts, t.label ≠ "eof" ∧ t.loc.isSome = true) →
      createIdentitySourcemap fn (ts ++ [eofTok]) = ts.map (tokenMapping fn)
  | [], _ => by
    simp [createIdentitySourcemap, heof]
  | t :: ts, hts => by
    obtain ⟨hlabel, hloc⟩ := hts t (List.mem_cons_self t ts)
    obtain ⟨p, hp⟩ := Option.isSome_iff_exists.mp hloc
    have ih := createIdentity_eq_map fn eofTok heof ts
      (fun u hu => hts u (List.mem_cons_of_mem t hu))
    simp only [List.cons_append, createIdentitySourcemap, hp, List.map_cons,
      List.append_eq]
    rw [if_neg hlabel, ih]
    simp [tokenMapping, hp]

/-- Claim C3: for every token stream (all tokens located, as produced by
acorn with `locations: true`, and terminated by the eof token) the
synthesized identity map has one mapping per non-eof token, and every
mapping's generated position equals its original position and its source
is the forward-slash-normalized source path, exactly as
`addSourcemap` passes it (`src.replace(/\\/g, '/')`). -/
theorem identitySourcemapMappings (src : String) (ts : List Token)
    (eofTok : Token)
    (hts : ∀ t ∈ ts, t.label ≠ "eof" ∧ t.loc.isSome = true)
    (heof : eofTok.label = "eof") :
    createIdentitySourcemap (replaceBackslashes src) (ts ++ [eofTok]) =
      ts.map (tokenMapping (replaceBackslashes src)) ∧
    (createIdentitySourcemap (replaceBackslashes src) (ts ++ [eofTok])).length
      = ts.length ∧
    ∀ m ∈ createIdentitySourcemap (replaceBackslashes src) (ts ++ [eofTok]),
      m.generated = m.original ∧ m.source = replaceBackslashes src := by
  have hmap := createIdentity_eq_map (replaceBackslashes src) eofTok heof ts hts
  refine ⟨hmap, ?_, ?_⟩
  · rw [hmap, List.length_map]
  · intro m hm
    rw [hmap] at hm
    obtain ⟨t, _, rfl⟩ := List.mem_map.mp hm
    exact ⟨rfl, rfl⟩

/-- Witness for `identitySourcemapMappings`: a two-token stream from a
Windows-style source path. -/
theorem identitySourcemapMappings_witness :
    createIdentitySourcemap (replaceBackslashes "src\\a.js")
        ([{ label := "name", loc := some { line := 1, column := 0 } },
          { label := "num", loc := some { line := 2, column := 4 } }] ++
          [{ label := "eof", loc := some { line := 3, column := 0 } }]) =
      [{ label := "name", loc := some { line := 1, column := 0 } },
        { label := "num", loc := some { line := 2, column := 4 } }].map
        (tokenMapping (replaceBackslashes "src\\a.js")) ∧
    (createIdentitySourcemap (replaceBackslashes "src\\a.js")
        ([{ label := "name", loc := some { line := 1, column := 0 } },
          { label := "num", loc := some { line := 2, column := 4 } }] ++
          [{ label := "eof", loc := some { line := 3, column := 0 } }])).length = 2 ∧
    ∀ m ∈ createIdentitySourcemap (replaceBackslashes "src\\a.js")
        ([{ label := "name", loc := some { line := 1, column := 0 } },
          { label := "num", loc := some { line := 2, column := 4 } }] ++
          [{ label := "eof", loc := some { line := 3, column := 0 } }]),
      m.generated = m.original ∧ m.source = replaceBackslashes "src\\a.js" :=
  identitySourcemapMappings "src\\a.js"
    [{ label := "name", loc := some { line := 1, column := 0 } },
      { label := "num", loc := some { line := 2, column := 4 } }]
    { label := "eof", loc := some { line := 3, column := 0 } }
    (by decide) (by decide)

/-- Helper for claim C9: when the sourceMappingURL regex matches nowhere
in the content, the replace call leaves the content unchanged. -/
theorem replaceFirstRef_of_no_match (fn : List Char) :
    ∀ s : List Char, hasRefMatch s = false → replaceFirstRef fn s = s
  | [], _ => rfl
  | c :: rest, h => by
    have hsplit : refMatchAt (c :: rest) = false ∧ hasRefMatch rest = false := by
      simpa [hasRefMatch] using h
    unfold replaceFirstRef
    rw [if_neg (by simp [hsplit.1])]
    rw [replaceFirstRef_of_no_match fn rest hsplit.2]

/-- Claim C9: for content without an existing sourceMappingURL reference
and not ending in a newline, the appended reference line is preceded by
CRLF when the content contains a CRLF pair (Windows line endings) and by
LF otherwise. -/
theorem appendRefPreservesEol (content filename : List Char)
    (hnoref : hasRefMatch content = false)
    (hnl : content.getLast? ≠ some '\n') :
    (containsCRLF content = true →
      updateMapRef content filename =
        content ++ ['\r', '\n'] ++ refMarker ++ filename) ∧
    (containsCRLF content = false →
      updateMapRef content filename =
        content ++ ['\n'] ++ refMarker ++ filename) := by
  have hrepl : replaceFirstRef filename content = content :=
    replaceFirstRef_of_no_match filename content hnoref
  constructor
  · intro hcrlf
    unfold updateMapRef
    rw [if_pos hrepl, if_neg hnl, if_pos hcrlf]
  · intro hcrlf
    unfold updateMapRef
    rw [if_pos hrepl, if_neg hnl, if_neg (by simp [hcrlf])]

/-- Witness for `appendRefPreservesEol`: a CRLF-terminated content
lacking both a reference and a trailing newline gets the reference
preceded by a CRLF. -/
theorem appendRefPreservesEol_witness :
    updateMapRef "var a;\r\nvar b;".data "a.js.map".data =
      "var a;\r\nvar b;".data ++ ['\r', '\n'] ++ refMarker ++ "a.js.map".data :=
  (appendRefPreservesEol "var a;\r\nvar b;".data "a.js.map".data
    (by decide) (by decide)).1 (by decide)

/-- Helper for claim C4: the adapter pattern never matches a
`/browser-sync/` path (they differ at the second character). -/
theorem adapterPattern_not_on_browserSync (name rest : List Char) :
    (adapterPatternChars name).isPrefixOf (browserSyncChars ++ rest) = false := by
  simp [adapterPatternChars, browserSyncChars, List.isPrefixOf]

/-- Claim C4: a request path of the form `/adapter/<name>/<rest>` is
forwarded to the asset origin with the adapter prefix replaced by a
single slash and with upgrade disabled; a `/browser-sync/<rest>` path is
forwarded to the asset origin unmodified with upgrade disabled; every
path matching neither pattern is forwarded unmodified to the application
origin, the only route with WebSocket upgrade enabled. -/
theorem routerForwarding (name rest p : List Char) :
    routeRequest name (adapterPatternChars name ++ rest) =
      { target := .assetOrigin, path := '/' :: rest, wsEnabled := false } ∧
    routeRequest name (browserSyncChars ++ rest) =
      { target := .assetOrigin, path := browserSyncChars ++ rest,
        wsEnabled := false } ∧
    (matchesAssetRoute name p = false →
      routeRequest name p =
        { target := .appOrigin, path := p, wsEnabled := true }) := by
  have hpat : (adapterPatternChars name).isPrefixOf
      (adapterPatternChars name ++ rest) = true := by
    rw [List.isPrefixOf_iff_prefix]
    exact List.prefix_append _ _
  have hbs : browserSyncChars.isPrefixOf (browserSyncChars ++ rest) = true := by
    rw [List.isPrefixOf_iff_prefix]
    exact List.prefix_append _ _
  refine ⟨?_, ?_, ?_⟩
  · have hm1 : matchesAssetRoute name (adapterPatternChars name ++ rest) = true := by
      simp [matchesAssetRoute, hpat]
    rw [routeRequest, if_pos hm1]
    simp [rewriteAdapterPath, hpat, List.drop_left]
  · have hm2 : matchesAssetRoute name (browserSyncChars ++ rest) = true := by
      simp [matchesAssetRoute, hbs]
    rw [routeRequest, if_pos hm2]
    simp [rewriteAdapterPath, adapterPattern_not_on_browserSync]
  · intro h
    rw [routeRequest, if_neg (by simp [h])]

/-- Witness for `routerForwarding`: the adapter `admin`, the asset path
`dashboard.html` and the non-matching WebSocket path `/socket.io/`. -/
theorem routerForwarding_witness :
    routeRequest "admin".data
        (adapterPatternChars "admin".data ++ "dashboard.html".data) =
      { target := .assetOrigin, path := '/' :: "dashboard.html".data,
        wsEnabled := false } ∧
    routeRequest "admin".data "/socket.io/".data =
      { target := .appOrigin, path := "/socket.io/".data, wsEnabled := true } :=
  ⟨(routerForwarding "admin".data "dashboard.html".data "/socket.io/".data).1,
    (routerForwarding "admin".data "dashboard.html".data "/socket.io/".data).2.2
      (by decide)⟩

end DevServer
